import Mathlib

/-!
Verification of the fsspec/OneDrive ingest connectors
(`unstructured/ingest/connector/s3_2.py`, `onedrive.py`).

The Python code is shallowly embedded: strings are Lean `String`s
(manipulated through their `List Char` data so every definition is
structurally recursive and kernel-evaluable), `pathlib.PurePosixPath`
values are modelled by `PPath` (normalised component lists), fallible
constructors return `Except`, and the local filesystem touched by
`get_file` is a map from path strings to file sizes.
-/

namespace Ingest

/-- Split a list at the first occurrence of the pattern `sep`:
`some (before, after)` when `sep` occurs, `none` otherwise.  This is the
building block for the Python `str.split` call in `SimpleFsspecConfig.__post_init__`
(which unpacks into exactly two names, so exactly one occurrence is required). -/
def splitFirst (sep : List Char) : List Char → Option (List Char × List Char)
  | [] => none
  | c :: rest =>
    if sep.isPrefixOf (c :: rest) then some ([], (c :: rest).drop sep.length)
    else
      match splitFirst sep rest with
      | some (a, b) => some (c :: a, b)
      | none => none

/-- Split a list on every occurrence of the single character `c`
(the semantics of Python `str.split(c)` for a one-character separator). -/
def splitChar (c : Char) : List Char → List (List Char)
  | [] => [[]]
  | x :: xs =>
    match splitChar c xs with
    | [] => [[]]
    | h :: t => if x == c then [] :: h :: t else (x :: h) :: t

/-- Does the pattern `pat` occur as a contiguous subsequence of `s`?
Occurrences are detected exactly as Python `str.replace` scans: left to right. -/
def hasOccur (pat : List Char) : List Char → Bool
  | [] => pat.isEmpty
  | c :: rest => pat.isPrefixOf (c :: rest) || hasOccur pat rest

/-- Fuelled core of `str.replace`: replaces non-overlapping occurrences of
`pat` by `rep`, scanning left to right, exactly as Python and Lean string
replace do.  The fuel (an upper bound on the length of the scanned list)
keeps the recursion structural so the kernel can evaluate it. -/
def replaceFuel (pat rep : List Char) : Nat → List Char → List Char
  | 0, s => s
  | _ + 1, [] => []
  | n + 1, c :: rest =>
    if pat.isPrefixOf (c :: rest) then
      rep ++ replaceFuel pat rep n (rest.drop (pat.length - 1))
    else
      c :: replaceFuel pat rep n rest

/-- Embedding of Python `s.replace(pat, rep)` for a non-empty pattern
(every call site in the source builds the pattern by appending a slash or a
validated protocol name, so it is never empty; for the empty pattern we keep
`s`, which is also what Lean core `String.replace` does). -/
def strReplace (s pat rep : String) : String :=
  match pat.data with
  | [] => s
  | _ :: _ => ⟨replaceFuel pat.data rep.data s.data.length s.data⟩

/-- Whitespace characters of the regex class used in `__post_init__`
(Python re `[\s]` over ASCII input). -/
def isWs (c : Char) : Bool :=
  c == ' ' || c == '\t' || c == '\n' || c == '\r' ||
    c == Char.ofNat 11 || c == Char.ofNat 12

/-- First character of the string data, if any. -/
def headChar (s : String) : Option Char := s.data.head?

/-- Does the string start with a forward slash?  (Used where Python indexes
`s[0] == "/"` and where `PurePosixPath` treats an argument as absolute.) -/
def startsWithSlash (s : String) : Bool :=
  match s.data with
  | c :: _ => c == '/'
  | [] => false

section PPathModel

/-- The path components of a POSIX path string as `pathlib.PurePosixPath`
normalises them: split on the separator, drop empty components (repeated or
trailing separators) and single-dot components. -/
def pathParts (s : String) : List String :=
  ((splitChar '/' s.data).map (fun l => (⟨l⟩ : String))).filter
    (fun c => c != "" && c != ".")

/-- Model of `pathlib.PurePosixPath`: whether the path is absolute, plus its
normalised components.  Two `Path` values that print the same are equal, which
matches `pathlib` equality. -/
structure PPath where
  absolute : Bool
  parts : List String
deriving DecidableEq

/-- The `PurePosixPath` constructor on a single string. -/
def PPath.ofString (s : String) : PPath :=
  ⟨startsWithSlash s, pathParts s⟩

/-- The `/` operator of `pathlib`: joining an absolute right operand discards
the left operand, otherwise the components are concatenated. -/
def PPath.divStr (p : PPath) (s : String) : PPath :=
  if startsWithSlash s then PPath.ofString s else ⟨p.absolute, p.parts ++ pathParts s⟩

/-- Join components with the separator. -/
def joinSlash : List String → String
  | [] => ""
  | [x] => x
  | x :: y :: xs => x ++ "/" ++ joinSlash (y :: xs)

/-- Python `str(path)`: the empty relative path prints as a dot. -/
def PPath.toStr (p : PPath) : String :=
  if p.absolute then "/" ++ joinSlash p.parts
  else if p.parts = [] then "." else joinSlash p.parts

end PPathModel

section FsspecConfig

/-- `SUPPORTED_REMOTE_FSSPEC_PROTOCOLS` of `s3_2.py`. -/
def SUPPORTED_REMOTE_FSSPEC_PROTOCOLS : List String :=
  ["s3", "s3a", "abfs", "az", "gs", "gcs", "box", "dropbox"]

/-- The fields `SimpleFsspecConfig.__post_init__` derives from the raw `path`
string: `protocol`, `path_without_protocol`, `dir_path`, `file_path`. -/
structure FsspecLocation where
  protocol : String
  path_without_protocol : String
  dir_path : String
  file_path : String
deriving DecidableEq

/-- First regex of `__post_init__` (the dropbox sentinel),
`re.match(rf"{protocol}://([\s])/", path)` checked on the part after
`protocol://`: one whitespace character immediately followed by a slash. -/
def reDropbox (rest : List Char) : Bool :=
  match rest with
  | a :: b :: _ => isWs a && b == '/'
  | _ => false

/-- Second regex of `__post_init__`,
`re.match(rf"{protocol}://([^/\s]+?)(/*)$", path)`: a non-empty run without
slash or whitespace, then only trailing slashes up to the end of the string.
Returns the captured group (the future `dir_path`). -/
def reRootOnly (rest : List Char) : Option (List Char) :=
  let base := rest.takeWhile (fun c => c != '/')
  let tail := rest.drop base.length
  if !base.isEmpty && base.all (fun c => !isWs c) && tail.all (fun c => c == '/')
  then some base else none

/-- Third regex of `__post_init__`,
`re.match(rf"{protocol}://([^/\s]+?)/([^\s]*)", path)`: a non-empty run
without slash or whitespace, a slash, then a greedy (possibly empty) run of
non-whitespace.  The match is not anchored at the end, exactly as `re.match`
is not.  Returns the two captured groups. -/
def reGeneral (rest : List Char) : Option (List Char × List Char) :=
  let base := rest.takeWhile (fun c => c != '/')
  match rest.drop base.length with
  | '/' :: after =>
    if !base.isEmpty && base.all (fun c => !isWs c) then
      some (base, after.takeWhile (fun c => !isWs c))
    else none
  | _ => none

/-- Embedding of `SimpleFsspecConfig.__post_init__` (s3_2.py lines 46..75).
`path.split("://")` must yield exactly two parts (otherwise the Python tuple
unpacking raises), the protocol must be recognised, and the three regexes are
tried in source order; when none matches a `ValueError` is raised. -/
def postInit (path : String) : Except String FsspecLocation :=
  match splitFirst "://".data path.data with
  | none => .error "ValueError: not enough values to unpack"
  | some (protoC, restC) =>
    match splitFirst "://".data restC with
    | some _ => .error "ValueError: too many values to unpack"
    | none =>
      let protocol : String := ⟨protoC⟩
      let rest : String := ⟨restC⟩
      if protocol ∈ SUPPORTED_REMOTE_FSSPEC_PROTOCOLS then
        if protocol == "dropbox" && reDropbox restC then
          .ok ⟨protocol, rest, " ", ""⟩
        else
          match reRootOnly restC with
          | some base => .ok ⟨protocol, rest, ⟨base⟩, ""⟩
          | none =>
            match reGeneral restC with
            | some (d, f) => .ok ⟨protocol, rest, ⟨d⟩, ⟨f⟩⟩
            | none => .error "ValueError: Invalid path. Expected protocol, dir-path, file-or-dir-path."
      else .error "ValueError: Protocol not supported yet."

end FsspecConfig

section FsspecDoc

/-- Embedding of `FsspecIngestDoc._tmp_download_file` (s3_2.py lines 90..95):
`Path(download_dir) / remote_file_path.replace(dir_path + "/", "")`, where
`download_dir` is `read_config.download_dir` when that is set and non-empty,
the empty string otherwise. -/
def tmp_download_file (read_download_dir : Option String) (cfg : FsspecLocation)
    (remote_file_path : String) : PPath :=
  let download_dir :=
    match read_download_dir with
    | some d => if d = "" then "" else d
    | none => ""
  PPath.divStr (PPath.ofString download_dir)
    (strReplace remote_file_path (cfg.dir_path ++ "/") "")

/-- Embedding of `FsspecIngestDoc._output_filename` (s3_2.py lines 97..102):
`Path(output_dir) / (remote_file_path.replace(dir_path + "/", "") + ".json")`.
Note the source appends `.json` to the relative suffix; it does not replace
the existing extension. -/
def output_filename (output_dir : String) (cfg : FsspecLocation)
    (remote_file_path : String) : PPath :=
  PPath.divStr (PPath.ofString output_dir)
    (strReplace remote_file_path (cfg.dir_path ++ "/") "" ++ ".json")

end FsspecDoc

section FsspecSource

/-- Embedding of `FsspecSourceConnector.initialize` (s3_2.py lines 150..156):
raises `ValueError("No objects found in ...")` when the backend listing of the
configured root is empty, returns normally otherwise.  The spec names this
failure `ConnectorInitError`. -/
def connector_init {α : Type} (ls_output : List α) : Except String Unit :=
  if ls_output.length < 1 then .error "ValueError: No objects found" else .ok ()

/-- One entry of the detailed backend listing (`fs.ls(..., detail=True)` or
`fs.find(..., detail=True)`): the object name and its reported size. -/
structure FsEntry where
  name : String
  size : Nat
deriving DecidableEq

/-- Embedding of `FsspecSourceConnector._list_files` (s3_2.py lines 158..178):
in the shallow mode the names of the `fs.ls` entries with positive size, in
the recursive mode the keys of the `fs.find` entries with positive size.  The
backend listings are inputs: the transfer mechanics of fsspec are outside the
core. -/
def list_files (recursive : Bool) (ls_entries find_entries : List FsEntry) :
    List String :=
  if !recursive then
    (ls_entries.filter (fun x => decide (0 < x.size))).map (fun x => x.name)
  else
    (find_entries.filter (fun x => decide (0 < x.size))).map (fun x => x.name)

/-- An `FsspecIngestDoc` as `get_ingest_docs` creates it: the shared connector
configuration and the document's remote file path. -/
structure FsspecDoc where
  connector_config : FsspecLocation
  remote_file_path : String
deriving DecidableEq

/-- Embedding of `FsspecSourceConnector.get_ingest_docs` (s3_2.py lines
180..189): one `FsspecIngestDoc` per listed file. -/
def get_ingest_docs (cfg : FsspecLocation) (recursive : Bool)
    (ls_entries find_entries : List FsEntry) : List FsspecDoc :=
  (list_files recursive ls_entries find_entries).map (fun f => ⟨cfg, f⟩)

end FsspecSource

section FsspecDestination

/-- Embedding of the per-document remote-target computation inside
`FsspecDestinationConnector.write` (s3_2.py lines 215..226), for one document
with the given `partition_config.output_dir`, destination `connector_config.path`
and `str(doc._output_filename)`.  The Python indexing `s3_folder[-1]` and
`s3_file_path[0]` raises on an empty string; both strings are non-empty at
every reachable call (the destination path always holds a protocol), and the
model keeps the not-taken branch there. -/
def s3_output_path (output_dir dest_path local_output : String) : String :=
  let s3_file_path := strReplace local_output output_dir dest_path
  let s3_folder := dest_path
  let s3_folder :=
    if s3_folder.data.getLast? ≠ some '/' then s3_file_path ++ "/" else s3_folder
  let s3_file_path :=
    if headChar s3_file_path = some '/' then (⟨s3_file_path.data.drop 1⟩ : String)
    else s3_file_path
  s3_folder ++ s3_file_path

/-- What `write` reads from one already-processed document: the document's
`partition_config.output_dir` and its `_output_filename`. -/
structure OutDoc where
  output_dir : String
  out_file : PPath
deriving DecidableEq

/-- Embedding of the `write` loop of `FsspecDestinationConnector.write`
(s3_2.py lines 206..228).  `put_file lpath rpath` models
`fs.put_file(lpath=..., rpath=...)`: `none` on success, `some e` when the
upload raises `e`.  A raised exception propagates out of the loop, so the
result is the list of `(lpath, rpath)` uploads completed before the failure
together with the propagated error, if any. -/
def write_docs (dest_path : String) (put_file : String → String → Option String) :
    List OutDoc → List (String × String) × Option String
  | [] => ([], none)
  | doc :: rest =>
    let lpath := doc.out_file.toStr
    let rpath := s3_output_path doc.output_dir dest_path lpath
    match put_file lpath rpath with
    | some e => ([], some e)
    | none =>
      let r := write_docs dest_path put_file rest
      ((lpath, rpath) :: r.1, r.2)

end FsspecDestination

section FetchGuard

/-- The local filesystem seen by `get_file`: each path maps to the size of the
file stored there, `none` when the path does not exist. -/
def LocalFS : Type := String → Option Nat

/-- Writing a file of the given size at a path. -/
def fsWrite (fs : LocalFS) (p : String) (sz : Nat) : LocalFS :=
  fun q => if q = p then some sz else fs q

/-- The body of `FsspecIngestDoc.get_file` (s3_2.py lines 110..119) once the
guard lets it run: the fsspec transfer pulls the remote object (of size
`remote_size`) to the local path, performing one network transfer.  The
returned number counts the transfers this call performed. -/
def fsspec_get (remote_size : Nat) (p : String) (fs : LocalFS) : LocalFS × Nat :=
  (fsWrite fs p remote_size, 1)

/-- Modelled from the spec: the decorator `BaseIngestDoc.skip_if_file_exists`
(defined in `unstructured/ingest/interfaces2.py`, which is not among the
sources here) wrapping the `get_file` body, per spec section 4.2: fetch first
checks whether the local download path already exists and is non-empty; if so
it returns immediately without contacting the remote backend, and a zero-byte
file must not be treated as already fetched. -/
def get_file (remote_size : Nat) (p : String) (fs : LocalFS) : LocalFS × Nat :=
  match fs p with
  | some sz => if 0 < sz then (fs, 0) else fsspec_get remote_size p fs
  | none => fsspec_get remote_size p fs

end FetchGuard

section OneDrive

/-- The `name` property of `pathlib.PurePath` on a POSIX string: the last
normalised component (empty and single-dot components are dropped). -/
def path_name (s : String) : String :=
  ((((splitChar '/' s.data).map (fun l => (⟨l⟩ : String))).filter
    (fun c => c != "" && c != ".")).getLast?).getD ""

/-- Python `"".join(Path(file_name).suffixes)`: empty when the name ends with
a dot, otherwise the name loses its leading dots and every dot-separated piece
after the first is kept with its dot. -/
def joined_suffixes (file_name : String) : String :=
  let name := path_name file_name
  if name.data.getLast? = some '.' then ""
  else
    let core := name.data.dropWhile (fun c => c == '.')
    match splitChar '.' core with
    | [] => ""
    | _ :: tail => ⟨(tail.map (fun piece => '.' :: piece)).flatten⟩

/-- An `OneDriveIngestDoc` after a successful `__post_init__`. -/
structure OneDriveDoc where
  file_name : String
  file_path : String
  ext : String
  server_relative_path : String
deriving DecidableEq

/-- Embedding of `OneDriveIngestDoc.__post_init__` (onedrive.py lines 67..79):
the joined suffixes of the file name must be non-empty and a key of
`EXT_TO_FILETYPE`.  `EXT_TO_FILETYPE` lives in
`unstructured/file_utils/filetype.py`, outside the sources here, so the set of
its string keys is an abstract parameter `ext_to_filetype`.  (Download-path
resolution, which cannot raise, is not needed by any claim and is omitted.) -/
def onedrive_post_init (ext_to_filetype : List String)
    (file_name file_path : String) : Except String OneDriveDoc :=
  let ext := joined_suffixes file_name
  if ext = "" then .error "ValueError: Unsupported file without extension."
  else if ext ∉ ext_to_filetype then .error "ValueError: Extension not supported."
  else .ok ⟨file_name, file_path, ext, file_path ++ "/" ++ file_name⟩

/-- Embedding of `OneDriveConnector._gen_ingest_doc` (onedrive.py lines
163..172): the parent path is the part of `file.parent_reference.path` after
the last colon, a leading slash is stripped (Python indexes `file_path[0]`,
which raises on an empty string), and the document is constructed. -/
def gen_ingest_doc (ext_to_filetype : List String)
    (parent_ref_path file_name : String) : Except String OneDriveDoc :=
  match ((splitChar ':' parent_ref_path.data).getLast?).getD [] with
  | [] => .error "IndexError: string index out of range"
  | c :: cs =>
    onedrive_post_init ext_to_filetype file_name
      (if c = '/' then (⟨cs⟩ : String) else ⟨c :: cs⟩)

/-- Embedding of `OneDriveConnector.get_ingest_docs` (onedrive.py lines
177..184) applied to the enumerated drive items, each item given by its
`parent_reference.path` and `name`: the list comprehension builds the
documents in order and the first raised error propagates. -/
def onedrive_get_ingest_docs (ext_to_filetype : List String) :
    List (String × String) → Except String (List OneDriveDoc)
  | [] => .ok []
  | (pref, name) :: rest =>
    match gen_ingest_doc ext_to_filetype pref name with
    | .error e => .error e
    | .ok d =>
      match onedrive_get_ingest_docs ext_to_filetype rest with
      | .error e => .error e
      | .ok ds => .ok (d :: ds)

end OneDrive

section SpecSide

/-- Modelled from the spec (section 4.1 local-path mapping): strip only the
leading occurrence of the prefix, keep the string unchanged otherwise.  This
is the mapping the spec words describe; the source code instead removes every
occurrence of the prefix. -/
def strip_leading (s pre : String) : String :=
  if pre.data.isPrefixOf s.data then ⟨s.data.drop pre.data.length⟩ else s

/-- Modelled from the spec (claim wording for the output path): the relative
suffix with its extension replaced by `.json`: everything after the last dot
is dropped and `.json` is put there; when there is no dot, `.json` is
appended. -/
def replace_extension (s : String) : String :=
  match (splitChar '.' s.data).reverse with
  | [] => s ++ ".json"
  | [_] => s ++ ".json"
  | _ :: front => (⟨(front.reverse.map (fun piece => piece ++ ['.'])).flatten.dropLast⟩ : String) ++ ".json"

/-- Modelled from the spec: the download path the spec words prescribe,
`download_root / strip_prefix(remote_reference, directory + "/")`. -/
def spec_download_path (download_root dir ref : String) : PPath :=
  PPath.divStr (PPath.ofString download_root) (strip_leading ref (dir ++ "/"))

/-- Modelled from the spec: the output path the claim words prescribe, the
same relative suffix with its extension replaced by `.json`, rooted at
`output_root`. -/
def spec_output_path (output_root dir ref : String) : PPath :=
  PPath.divStr (PPath.ofString output_root)
    (replace_extension (strip_leading ref (dir ++ "/")))

end SpecSide

section ReplaceLemmas

theorem isPrefixOf_append_self (l t : List Char) : l.isPrefixOf (l ++ t) = true := by
  induction l with
  | nil => cases t <;> rfl
  | cons c cs ih => simp [List.isPrefixOf, ih]

theorem replaceFuel_no_occur (pat rep : List Char) :
    ∀ (n : Nat) (s : List Char), s.length ≤ n → hasOccur pat s = false →
      replaceFuel pat rep n s = s := by
  intro n
  induction n with
  | zero =>
    intro s hle _
    have hs : s = [] := List.eq_nil_of_length_eq_zero (Nat.le_zero.mp hle)
    subst hs; rfl
  | succ n ih =>
    intro s hle hocc
    cases s with
    | nil => rfl
    | cons c rest =>
      have hocc2 : pat.isPrefixOf (c :: rest) = false ∧ hasOccur pat rest = false := by
        simpa [hasOccur] using hocc
      simp only [replaceFuel, hocc2.1, Bool.false_eq_true, if_false]
      rw [ih rest (Nat.le_of_succ_le_succ hle) hocc2.2]

theorem replaceFuel_strip (p : Char) (pr t : List Char) (n : Nat)
    (hle : t.length ≤ n) (hocc : hasOccur (p :: pr) t = false) :
    replaceFuel (p :: pr) [] (n + 1) (p :: (pr ++ t)) = t := by
  have hpre : (p :: pr).isPrefixOf (p :: (pr ++ t)) = true :=
    isPrefixOf_append_self (p :: pr) t
  simp only [replaceFuel, hpre, if_true, List.nil_append]
  have hdrop : (pr ++ t).drop ((p :: pr).length - 1) = t := by
    simp only [List.length_cons, Nat.add_sub_cancel]
    exact List.drop_left pr t
  rw [hdrop, replaceFuel_no_occur (p :: pr) [] n t hle hocc]

/-- Stripping lemma for the embedded `str.replace`: when the whole string is
the pattern followed by a suffix in which the pattern never occurs again,
replacing the pattern by the empty string leaves exactly the suffix. -/
theorem strReplace_strip (p : Char) (pr : List Char) (suf : String)
    (hocc : hasOccur (p :: pr) suf.data = false) :
    strReplace ((⟨p :: pr⟩ : String) ++ suf) ⟨p :: pr⟩ "" = suf := by
  have hdata : ((⟨p :: pr⟩ : String) ++ suf).data = p :: (pr ++ suf.data) := by
    rw [String.data_append]; rfl
  show (⟨replaceFuel (p :: pr) [] ((⟨p :: pr⟩ : String) ++ suf).data.length
      ((⟨p :: pr⟩ : String) ++ suf).data⟩ : String) = suf
  rw [hdata]
  have hlen : (p :: (pr ++ suf.data)).length = (pr.length + suf.data.length) + 1 := by
    simp only [List.length_cons, List.length_append]
  rw [hlen, replaceFuel_strip p pr suf.data (pr.length + suf.data.length)
    (Nat.le_add_left _ _) hocc]

/-- The pattern `dir_path ++ "/"` built by the source is never empty. -/
theorem slash_pat_ne_nil (d : String) : (d ++ "/").data ≠ [] := by
  intro h
  have h2 := congrArg List.length h
  rw [String.data_append, List.length_append, List.length_nil] at h2
  have h3 : ("/" : String).data.length = 1 := by decide
  rw [h3] at h2
  omega

end ReplaceLemmas

section PathLemmas

/-- String-level stripping: when the pattern is non-empty and does not occur
in the suffix, replacing it by the empty string in pattern-plus-suffix leaves
the suffix. -/
theorem strReplace_strip_of_ne (pre suf : String) (hne : pre.data ≠ [])
    (hocc : hasOccur pre.data suf.data = false) :
    strReplace (pre ++ suf) pre "" = suf := by
  cases hp : pre.data with
  | nil => exact absurd hp hne
  | cons p pr =>
    have he : pre = ⟨p :: pr⟩ := by
      cases pre with
      | mk d => cases hp; rfl
    rw [he]
    exact strReplace_strip p pr suf (by rw [← hp]; exact hocc)

/-- The download-directory fallback of `_tmp_download_file`
(`download_dir if download_dir else ""`) collapses to `Option.getD ""`. -/
theorem tmp_download_file_eq (rdl : Option String) (cfg : FsspecLocation) (r : String) :
    tmp_download_file rdl cfg r =
      PPath.divStr (PPath.ofString (rdl.getD ""))
        (strReplace r (cfg.dir_path ++ "/") "") := by
  cases rdl with
  | none => rfl
  | some d =>
    show PPath.divStr (PPath.ofString (if d = "" then "" else d)) _ = _
    by_cases hd : d = "" <;> simp [hd, Option.getD]

end PathLemmas

section OneDriveLemmas

theorem onedrive_post_init_ok (exts : List String) (nm fp : String) (d : OneDriveDoc)
    (h : onedrive_post_init exts nm fp = .ok d) :
    joined_suffixes d.file_name ≠ "" ∧ joined_suffixes d.file_name ∈ exts := by
  by_cases h1 : joined_suffixes nm = ""
  · simp [onedrive_post_init, h1] at h
  · by_cases h2 : joined_suffixes nm ∈ exts
    · have h3 : OneDriveDoc.mk nm fp (joined_suffixes nm) (fp ++ "/" ++ nm) = d := by
        simpa [onedrive_post_init, h1, h2] using h
      rw [← h3]
      exact ⟨h1, h2⟩
    · simp [onedrive_post_init, h1, h2] at h

theorem gen_ingest_doc_ok (exts : List String) (pref nm : String) (d : OneDriveDoc)
    (h : gen_ingest_doc exts pref nm = .ok d) :
    joined_suffixes d.file_name ≠ "" ∧ joined_suffixes d.file_name ∈ exts := by
  unfold gen_ingest_doc at h
  split at h
  · exact absurd h (by simp)
  · exact onedrive_post_init_ok _ _ _ _ h

end OneDriveLemmas

section Claims

/-- C1 (code_bug).  The claim: `write()` on a document whose local output
path is `output/sub/b.txt.json` with destination root `scheme://bucket/out/`
derives the remote target `bucket/out/sub/b.txt.json` (prefix substitution
with no duplicated separator and no dropped segment).  The code instead
replaces the output root by the full destination root inside the local path
and then prepends the destination root again: the computed upload target is
`s3://bucket/out/s3://bucket/out//sub/b.txt.json` — the destination root
duplicated and a doubled separator — which is neither the claimed target nor
the claimed target qualified by the protocol.  The last conjunct shows the
assumed local output path is exactly what `_output_filename` produces for a
source document `srcbucket/sub/b.txt`. -/
theorem C1_write_remote_target :
    s3_output_path "output" "s3://bucket/out/" "output/sub/b.txt.json" =
      "s3://bucket/out/s3://bucket/out//sub/b.txt.json" ∧
    s3_output_path "output" "s3://bucket/out/" "output/sub/b.txt.json" ≠
      "bucket/out/sub/b.txt.json" ∧
    s3_output_path "output" "s3://bucket/out/" "output/sub/b.txt.json" ≠
      "s3://bucket/out/sub/b.txt.json" ∧
    (output_filename "output" ⟨"s3", "srcbucket", "srcbucket", ""⟩
        "srcbucket/sub/b.txt").toStr = "output/sub/b.txt.json" := by
  refine ⟨rfl, by decide, by decide, rfl⟩

/-- C2 counterexample.  Two documents of the same connector (configured with
path `s3://a`, hence `dir_path = "a"`) with distinct remote references
`a/a/f.txt` and `a/f.txt` are mapped to the same local download path: the
mapping removes every occurrence of `a/`, so both become `dl/f.txt`. -/
theorem C2_counterexample :
    tmp_download_file (some "dl") ⟨"s3", "a", "a", ""⟩ "a/a/f.txt" =
      tmp_download_file (some "dl") ⟨"s3", "a", "a", ""⟩ "a/f.txt" ∧
    ("a/a/f.txt" : String) ≠ "a/f.txt" ∧
    postInit "s3://a" = .ok ⟨"s3", "a", "a", ""⟩ := by
  refine ⟨rfl, by decide, rfl⟩

/-- C2 (corrected).  Amended claim: two documents of the same SourceConnector
whose remote references are `dir_path ++ "/"` followed by suffixes in which
that pattern never occurs again, where neither suffix begins with a
separator and the suffixes have distinct path components, map to distinct
local download paths.  (As written the code removes every occurrence of
`dir_path ++ "/"`, so references such as `a/a/f.txt` and `a/f.txt` under
bucket `a` collide — see the counterexample.) -/
theorem C2_distinct_download_paths (rdl : Option String) (cfg : FsspecLocation)
    (suf1 suf2 : String)
    (h1 : hasOccur (cfg.dir_path ++ "/").data suf1.data = false)
    (h2 : hasOccur (cfg.dir_path ++ "/").data suf2.data = false)
    (habs1 : startsWithSlash suf1 = false)
    (habs2 : startsWithSlash suf2 = false)
    (hdist : pathParts suf1 ≠ pathParts suf2) :
    tmp_download_file rdl cfg (cfg.dir_path ++ "/" ++ suf1) ≠
      tmp_download_file rdl cfg (cfg.dir_path ++ "/" ++ suf2) := by
  intro heq
  have r1 : strReplace (cfg.dir_path ++ "/" ++ suf1) (cfg.dir_path ++ "/") "" = suf1 :=
    strReplace_strip_of_ne _ _ (slash_pat_ne_nil _) h1
  have r2 : strReplace (cfg.dir_path ++ "/" ++ suf2) (cfg.dir_path ++ "/") "" = suf2 :=
    strReplace_strip_of_ne _ _ (slash_pat_ne_nil _) h2
  rw [tmp_download_file_eq, tmp_download_file_eq, r1, r2] at heq
  simp only [PPath.divStr, habs1, habs2, Bool.false_eq_true, if_false,
    PPath.mk.injEq, true_and] at heq
  exact hdist (List.append_cancel_left heq)

/-- C2 witness: the claim's own instance, identical basenames under the
remote directories `dir1` and `dir2` of bucket `bucket`, do get distinct
local download paths; concretely the two paths are `dl/dir1/f.txt` and
`dl/dir2/f.txt`. -/
theorem C2_distinct_download_paths_witness :
    tmp_download_file (some "dl") ⟨"s3", "bucket", "bucket", ""⟩
        ("bucket" ++ "/" ++ "dir1/f.txt") ≠
      tmp_download_file (some "dl") ⟨"s3", "bucket", "bucket", ""⟩
        ("bucket" ++ "/" ++ "dir2/f.txt") ∧
    (tmp_download_file (some "dl") ⟨"s3", "bucket", "bucket", ""⟩
        ("bucket" ++ "/" ++ "dir1/f.txt")).parts = ["dl", "dir1", "f.txt"] := by
  refine ⟨C2_distinct_download_paths (some "dl") ⟨"s3", "bucket", "bucket", ""⟩
    "dir1/f.txt" "dir2/f.txt" (by decide) (by decide) (by decide) (by decide)
    (by decide), rfl⟩

/-- C3 counterexample.  Two concrete violations of the claim as stated: (a)
for `dir_path = "a"` and remote reference `a/a/f.txt`, the code maps to
`dl/f.txt` while the claimed strip-only-the-leading-prefix formula maps to
`dl/a/f.txt`; (b) for reference `bucket/b.txt` the code produces
`out/b.txt.json` (extension appended) while the claimed
extension-replaced-by-json formula gives `out/b.json`. -/
theorem C3_counterexample :
    (tmp_download_file (some "dl") ⟨"s3", "a", "a", ""⟩ "a/a/f.txt" ≠
       spec_download_path "dl" "a" "a/a/f.txt") ∧
    (output_filename "out" ⟨"s3", "bucket", "bucket", ""⟩ "bucket/b.txt" ≠
       spec_output_path "out" "bucket" "bucket/b.txt") ∧
    (tmp_download_file (some "dl") ⟨"s3", "a", "a", ""⟩ "a/a/f.txt").parts =
      ["dl", "f.txt"] ∧
    (spec_download_path "dl" "a" "a/a/f.txt").parts = ["dl", "a", "f.txt"] ∧
    (output_filename "out" ⟨"s3", "bucket", "bucket", ""⟩ "bucket/b.txt").parts =
      ["out", "b.txt.json"] ∧
    (spec_output_path "out" "bucket" "bucket/b.txt").parts = ["out", "b.json"] := by
  refine ⟨by decide, by decide, rfl, rfl, rfl, rfl⟩

/-- C3 (corrected).  Amended claim: for a remote reference in which
`dir_path ++ "/"` occurs only as the leading prefix, the mapped download
path equals `download_root` joined with the suffix after stripping that
leading prefix, and the mapped output path is that same relative suffix with
`".json"` appended (the extension is not replaced), rooted at `output_root`.
In general the code removes every occurrence of `dir_path ++ "/"`, not only
the leading one. -/
theorem C3_local_path_mapping (rdl : Option String) (out : String)
    (cfg : FsspecLocation) (suf : String)
    (hocc : hasOccur (cfg.dir_path ++ "/").data suf.data = false) :
    tmp_download_file rdl cfg (cfg.dir_path ++ "/" ++ suf) =
      spec_download_path (rdl.getD "") cfg.dir_path (cfg.dir_path ++ "/" ++ suf) ∧
    output_filename out cfg (cfg.dir_path ++ "/" ++ suf) =
      PPath.divStr (PPath.ofString out)
        (strip_leading (cfg.dir_path ++ "/" ++ suf) (cfg.dir_path ++ "/") ++ ".json") := by
  have hrep : strReplace (cfg.dir_path ++ "/" ++ suf) (cfg.dir_path ++ "/") "" = suf :=
    strReplace_strip_of_ne _ _ (slash_pat_ne_nil _) hocc
  have hstrip : strip_leading (cfg.dir_path ++ "/" ++ suf) (cfg.dir_path ++ "/") = suf := by
    unfold strip_leading
    have hd : (cfg.dir_path ++ "/" ++ suf).data = (cfg.dir_path ++ "/").data ++ suf.data :=
      String.data_append _ _
    rw [hd, isPrefixOf_append_self, if_pos rfl, List.drop_left]
  constructor
  · rw [tmp_download_file_eq, hrep]
    unfold spec_download_path
    rw [hstrip]
  · unfold output_filename
    rw [hrep, hstrip]

/-- C3 witness: at download root `dl`, output root `out`, bucket `bucket`
and remote reference `bucket/sub/b.txt`, the code paths agree with the
amended formulas. -/
theorem C3_local_path_mapping_witness :
    tmp_download_file (some "dl") ⟨"s3", "bucket", "bucket", ""⟩
        ("bucket" ++ "/" ++ "sub/b.txt") =
      spec_download_path ((some "dl").getD "") "bucket" ("bucket" ++ "/" ++ "sub/b.txt") ∧
    output_filename "out" ⟨"s3", "bucket", "bucket", ""⟩ ("bucket" ++ "/" ++ "sub/b.txt") =
      PPath.divStr (PPath.ofString "out")
        (strip_leading ("bucket" ++ "/" ++ "sub/b.txt") ("bucket" ++ "/") ++ ".json") :=
  C3_local_path_mapping (some "dl") "out" ⟨"s3", "bucket", "bucket", ""⟩ "sub/b.txt"
    (by decide)

/-- C4 (confirmed).  The idempotent fetch guard: when the document is not yet
downloaded (its local path is absent, or holds a zero-byte placeholder) and
the remote object is non-empty, the first `get_file` performs exactly one
transfer; the second call returns immediately (same filesystem, zero
transfers), so exactly one network transfer happens across the two calls.
The second conjunct is the zero-byte clause on its own: a zero-byte file at
the local path does not trigger the skip — the transfer is performed. -/
theorem C4_fetch_skip_guard :
    (∀ (fs : LocalFS) (p : String) (sz : Nat),
        fs p = none ∨ fs p = some 0 → 0 < sz →
        (get_file sz p fs).2 = 1 ∧
        get_file sz p (get_file sz p fs).1 = ((get_file sz p fs).1, 0) ∧
        (get_file sz p fs).2 + (get_file sz p (get_file sz p fs).1).2 = 1) ∧
    (∀ (fs : LocalFS) (p : String) (sz : Nat),
        fs p = some 0 → (get_file sz p fs).2 = 1) := by
  constructor
  · intro fs p sz h hsz
    have hw : fsWrite fs p sz p = some sz := by simp [fsWrite]
    have h1 : get_file sz p fs = (fsWrite fs p sz, 1) := by
      rcases h with h | h <;> simp [get_file, h, fsspec_get]
    rw [h1]
    have h2 : get_file sz p (fsWrite fs p sz, 1).1 = ((fsWrite fs p sz, 1).1, 0) := by
      simp [get_file, hw, hsz]
    exact ⟨rfl, h2, by rw [h2]; rfl⟩
  · intro fs p sz h
    simp [get_file, h, fsspec_get]

/-- C4 witness: a fresh document at path `downloads/f.txt` and a remote
object of five bytes. -/
theorem C4_fetch_skip_guard_witness :
    (get_file 5 "downloads/f.txt" (fun _ => none)).2 = 1 ∧
    get_file 5 "downloads/f.txt" (get_file 5 "downloads/f.txt" (fun _ => none)).1 =
      ((get_file 5 "downloads/f.txt" (fun _ => none)).1, 0) ∧
    (get_file 5 "downloads/f.txt" (fun _ => none)).2 +
      (get_file 5 "downloads/f.txt"
        (get_file 5 "downloads/f.txt" (fun _ => none)).1).2 = 1 :=
  C4_fetch_skip_guard.1 (fun _ => none) "downloads/f.txt" 5 (Or.inl rfl) (by decide)

/-- C5 (confirmed).  Every name `list_files` returns comes from an entry of
the mode's backend listing with positive size, in both the shallow and the
recursive mode; and the claim's concrete scenario: root `s3://bucket/docs`,
recursive listing `docs/a.txt` (size 10), `docs/sub/` (size 0),
`docs/sub/b.txt` (size 5) yields exactly the two documents for `docs/a.txt`
and `docs/sub/b.txt` — the zero-size placeholder is excluded. -/
theorem C5_zero_size_excluded :
    (∀ (recursive : Bool) (ls_entries find_entries : List FsEntry) (n : String),
        n ∈ list_files recursive ls_entries find_entries →
        ∃ e : FsEntry, e ∈ (if recursive then find_entries else ls_entries) ∧
          e.name = n ∧ 0 < e.size) ∧
    (get_ingest_docs ⟨"s3", "bucket/docs", "bucket", "docs"⟩ true []
        [⟨"docs/a.txt", 10⟩, ⟨"docs/sub/", 0⟩, ⟨"docs/sub/b.txt", 5⟩] =
      [⟨⟨"s3", "bucket/docs", "bucket", "docs"⟩, "docs/a.txt"⟩,
       ⟨⟨"s3", "bucket/docs", "bucket", "docs"⟩, "docs/sub/b.txt"⟩]) ∧
    postInit "s3://bucket/docs" = .ok ⟨"s3", "bucket/docs", "bucket", "docs"⟩ := by
  refine ⟨?_, rfl, rfl⟩
  intro recursive ls_entries find_entries n hn
  cases recursive with
  | false =>
    simp only [list_files, Bool.not_false, if_true, Bool.false_eq_true, if_false] at hn ⊢
    rcases List.mem_map.1 hn with ⟨e, he, rfl⟩
    have hf := List.mem_filter.1 he
    exact ⟨e, hf.1, rfl, of_decide_eq_true hf.2⟩
  | true =>
    simp only [list_files, Bool.not_true, Bool.false_eq_true, if_false, if_true] at hn ⊢
    rcases List.mem_map.1 hn with ⟨e, he, rfl⟩
    have hf := List.mem_filter.1 he
    exact ⟨e, hf.1, rfl, of_decide_eq_true hf.2⟩

/-- C5 witness: the scenario's first document name traces back to the
positive-size entry that reported it. -/
theorem C5_zero_size_excluded_witness :
    ∃ e : FsEntry,
      e ∈ (if (true : Bool) then
        [(⟨"docs/a.txt", 10⟩ : FsEntry), ⟨"docs/sub/", 0⟩, ⟨"docs/sub/b.txt", 5⟩]
        else []) ∧ e.name = "docs/a.txt" ∧ 0 < e.size :=
  C5_zero_size_excluded.1 true []
    [⟨"docs/a.txt", 10⟩, ⟨"docs/sub/", 0⟩, ⟨"docs/sub/b.txt", 5⟩] "docs/a.txt"
    (by decide)

/-- C6 (confirmed).  For every recognised scheme, resolving
`scheme://bucket/a/b/c.txt` yields `dir_path = "bucket"` and
`file_path = "a/b/c.txt"`, and resolving the string reconstructed from that
Location (`protocol ++ "://" ++ dir_path ++ "/" ++ file_path`) yields the
identical Location. -/
theorem C6_resolve_general (p : String)
    (hp : p ∈ SUPPORTED_REMOTE_FSSPEC_PROTOCOLS) :
    postInit (p ++ "://bucket/a/b/c.txt") =
      .ok ⟨p, "bucket/a/b/c.txt", "bucket", "a/b/c.txt"⟩ ∧
    postInit (p ++ "://" ++ "bucket" ++ "/" ++ "a/b/c.txt") =
      .ok ⟨p, "bucket/a/b/c.txt", "bucket", "a/b/c.txt"⟩ := by
  fin_cases hp <;> exact ⟨rfl, rfl⟩

/-- C6 witness: the scheme `s3`. -/
theorem C6_resolve_general_witness :
    postInit ("s3" ++ "://bucket/a/b/c.txt") =
      .ok ⟨"s3", "bucket/a/b/c.txt", "bucket", "a/b/c.txt"⟩ ∧
    postInit ("s3" ++ "://" ++ "bucket" ++ "/" ++ "a/b/c.txt") =
      .ok ⟨"s3", "bucket/a/b/c.txt", "bucket", "a/b/c.txt"⟩ :=
  C6_resolve_general "s3" (by decide)

/-- C7 (confirmed).  For the empty-root scheme (dropbox), resolving the
string consisting of the scheme, `://`, a single space, a single separator
and nothing else yields the single-space whole-store sentinel directory and
an empty file component. -/
theorem C7_dropbox_sentinel :
    postInit "dropbox:// /" = .ok ⟨"dropbox", " /", " ", ""⟩ := rfl

/-- C8 (confirmed).  `initialize` on a source connector fails exactly when
the backend reports zero listable objects at the configured root (the code
raises `ValueError("No objects found in ...")`, which the spec names
`ConnectorInitError`), and returns normally exactly when the backend reports
at least one listable object. -/
theorem C8_connector_init_fail_iff_empty {α : Type} (ls_output : List α) :
    ((∃ e, connector_init ls_output = .error e) ↔ ls_output = []) ∧
    (connector_init ls_output = .ok () ↔ ls_output ≠ []) := by
  cases ls_output with
  | nil => simp [connector_init]
  | cons a t => simp [connector_init]

/-- C8 witness: an empty listing fails, a one-element listing succeeds. -/
theorem C8_connector_init_fail_iff_empty_witness :
    (∃ e, connector_init ([] : List String) = .error e) ∧
    connector_init ["docs/a.txt"] = .ok () :=
  ⟨(C8_connector_init_fail_iff_empty ([] : List String)).1.mpr rfl,
   (C8_connector_init_fail_iff_empty ["docs/a.txt"]).2.mpr (by decide)⟩

/-- C9 counterexample.  Three documents, the uploader raising only on the
second one: `write` uploads the first document, propagates the error and
never uploads the third, although (second conjunct) the uploader would have
accepted the third document's upload.  The failure for the second document
does prevent the upload of the remaining document, refuting the claim. -/
theorem C9_counterexample :
    write_docs "s3://bucket/out/"
        (fun l _ => if l = "output/2.json" then some "SourceConnectionError" else none)
        [⟨"output", PPath.ofString "output/1.json"⟩,
         ⟨"output", PPath.ofString "output/2.json"⟩,
         ⟨"output", PPath.ofString "output/3.json"⟩] =
      ([("output/1.json", "s3://bucket/out/s3://bucket/out//1.json")],
        some "SourceConnectionError") ∧
    (fun l (_ : String) =>
        if l = "output/2.json" then some "SourceConnectionError" else none)
      "output/3.json" "s3://bucket/out/s3://bucket/out//3.json" = none :=
  ⟨rfl, rfl⟩

/-- C9 (corrected).  Amended claim: an upload failure for one document
aborts `write()` at that document — the documents earlier in the sequence
have been uploaded, the error propagates as a single exception, and the
remaining documents are not uploaded; there is no per-document failure
record. -/
theorem C9_write_aborts_on_failure (dest : String)
    (put_file : String → String → Option String)
    (pre post : List OutDoc) (d : OutDoc) (e : String)
    (hpre : ∀ d2 ∈ pre,
      put_file d2.out_file.toStr
        (s3_output_path d2.output_dir dest d2.out_file.toStr) = none)
    (hd : put_file d.out_file.toStr
        (s3_output_path d.output_dir dest d.out_file.toStr) = some e) :
    write_docs dest put_file (pre ++ d :: post) =
      (pre.map (fun d2 =>
        (d2.out_file.toStr, s3_output_path d2.output_dir dest d2.out_file.toStr)),
        some e) := by
  induction pre with
  | nil =>
    simp only [List.nil_append, write_docs, hd, List.map_nil]
  | cons q qre ih =>
    have hq := hpre q (by simp)
    have hrest : ∀ d2 ∈ qre,
        put_file d2.out_file.toStr
          (s3_output_path d2.output_dir dest d2.out_file.toStr) = none :=
      fun d2 hm => hpre d2 (by simp [hm])
    simp only [List.cons_append, write_docs, hq, List.map_cons, List.append_eq]
    rw [ih hrest]

/-- C9 witness: the amended behaviour at a concrete three-document run whose
second upload raises. -/
theorem C9_write_aborts_on_failure_witness :
    write_docs "s3://bucket/out/"
        (fun l _ => if l = "output/22.json" then some "boom" else none)
        ([⟨"output", PPath.ofString "output/11.json"⟩] ++
          (⟨"output", PPath.ofString "output/22.json"⟩ : OutDoc) ::
          [⟨"output", PPath.ofString "output/33.json"⟩]) =
      (([⟨"output", PPath.ofString "output/11.json"⟩] : List OutDoc).map
        (fun d2 => (d2.out_file.toStr,
          s3_output_path d2.output_dir "s3://bucket/out/" d2.out_file.toStr)),
        some "boom") :=
  C9_write_aborts_on_failure "s3://bucket/out/"
    (fun l _ => if l = "output/22.json" then some "boom" else none)
    [⟨"output", PPath.ofString "output/11.json"⟩]
    [⟨"output", PPath.ofString "output/33.json"⟩]
    ⟨"output", PPath.ofString "output/22.json"⟩ "boom" (by decide) (by decide)

/-- C10 (confirmed).  Constructing a OneDrive ingest document fails exactly
when the joined suffixes of the file name are empty (no extension) or are
not a key of the supported-filetype table (`EXT_TO_FILETYPE`, abstracted as
the set of its keys); consequently an enumeration that returns documents
returns only documents whose extension is present and supported. -/
theorem C10_onedrive_ext_validation :
    (∀ (exts : List String) (nm fp : String),
        (∃ e, onedrive_post_init exts nm fp = .error e) ↔
          (joined_suffixes nm = "" ∨ joined_suffixes nm ∉ exts)) ∧
    (∀ (exts : List String) (entries : List (String × String))
        (docs : List OneDriveDoc),
        onedrive_get_ingest_docs exts entries = .ok docs →
        ∀ d ∈ docs,
          joined_suffixes d.file_name ≠ "" ∧ joined_suffixes d.file_name ∈ exts) := by
  constructor
  · intro exts nm fp
    by_cases h1 : joined_suffixes nm = "" <;> by_cases h2 : joined_suffixes nm ∈ exts <;>
      simp [onedrive_post_init, h1, h2]
  · intro exts entries
    induction entries with
    | nil =>
      intro docs h d hd
      simp only [onedrive_get_ingest_docs, Except.ok.injEq] at h
      subst h
      simp at hd
    | cons pe rest ih =>
      obtain ⟨pref, nm⟩ := pe
      intro docs h d hd
      cases hgen : gen_ingest_doc exts pref nm with
      | error e2 => simp [onedrive_get_ingest_docs, hgen] at h
      | ok d0 =>
        cases hrec : onedrive_get_ingest_docs exts rest with
        | error e2 => simp [onedrive_get_ingest_docs, hgen, hrec] at h
        | ok ds =>
          have hdocs : d0 :: ds = docs := by
            simpa [onedrive_get_ingest_docs, hgen, hrec] using h
          subst hdocs
          rcases List.mem_cons.1 hd with rfl | hmem
          · exact gen_ingest_doc_ok exts pref nm d hgen
          · exact ih ds hrec d hmem

/-- C10 witness: with supported set containing `.txt`, the entry
`a.txt` under `/drive/root:/dir` yields exactly one document, whose
extension is present and supported. -/
theorem C10_onedrive_ext_validation_witness :
    joined_suffixes "a.txt" ≠ "" ∧ joined_suffixes "a.txt" ∈ [".txt"] :=
  C10_onedrive_ext_validation.2 [".txt"] [("/drive/root:/dir", "a.txt")]
    [⟨"a.txt", "dir", ".txt", "dir/a.txt"⟩] rfl
    ⟨"a.txt", "dir", ".txt", "dir/a.txt"⟩ (by decide)

end Claims

end Ingest




